import Mathlib

/-!
# SpaceVerse deployment script (`contracts/deploycontract.js`)

A shallow embedding of the script and of the runtime services it calls
(`hre.ethers`, `path.join`, `fs.existsSync`, `fs.mkdirSync`, `fs.writeFileSync`,
`JSON.stringify`, `console`), followed by theorems about its runs.

* JavaScript strings are sequences of UTF-16 code units, modelled as `List Nat`.
* The chain-interaction library is an environment `Env` of call outcomes: each awaited call
  either resolves or rejects with a thrown value. `address` and the result of
  `interface.format(FormatTypes.json)` are strings, as ethers v5 declares them.
* The filesystem is a map from absolute, normalised paths to nodes. `mkdirSync` and
  `writeFileSync` fail as Node does on the state of the tree (`ENOTDIR`, `ENOENT`, `EISDIR`),
  and may moreover fail by a fault of the environment (permissions, disk full).
* `JSON.stringify` follows ECMA-262 on an object whose properties are strings;
  `JSON.parse` follows the JSON grammar on objects whose member values are strings.
* A run threads a `World`: filesystem, chronological trace of calls, `process.exitCode`.
-/

namespace SpaceVerse

/-! ## Strings -/

/-- A JavaScript string: its UTF-16 code units in order. -/
abbrev JSString := List Nat

/-- The code units of a string literal of the script (all literals are ASCII). -/
def lit (s : String) : JSString := s.toList.map Char.toNat

/-- A thrown JavaScript value (an `Error` with its message). -/
structure JSError where
  message : JSString
deriving DecidableEq

/-! ## `JSON.stringify` (ECMA-262, 25.5.2) on an object with string-valued properties -/

/-- Lowercase hexadecimal digit of `d` as a code unit. -/
def hexDigit (d : Nat) : Nat := if d < 10 then 0x30 + d else 0x61 + (d - 10)

/-- The operation `UnicodeEscape(C)`: backslash, `u`, and four lowercase hexadecimal digits. -/
def UnicodeEscape (c : Nat) : JSString :=
  [0x5C, 0x75, hexDigit (c / 4096 % 16), hexDigit (c / 256 % 16),
    hexDigit (c / 16 % 16), hexDigit (c % 16)]

/-- Leading surrogate code unit. -/
def isLeadingSurrogate (c : Nat) : Bool := decide (0xD800 ≤ c) && decide (c ≤ 0xDBFF)

/-- Trailing surrogate code unit. -/
def isTrailingSurrogate (c : Nat) : Bool := decide (0xDC00 ≤ c) && decide (c ≤ 0xDFFF)

/-- The escape of one code point that is a single code unit (table 75 of ECMA-262, then the
`\uXXXX` form for control characters and lone surrogates, then the unit itself). -/
def quoteUnit (c : Nat) : JSString :=
  if c = 0x08 then [0x5C, 0x62]
  else if c = 0x09 then [0x5C, 0x74]
  else if c = 0x0A then [0x5C, 0x6E]
  else if c = 0x0C then [0x5C, 0x66]
  else if c = 0x0D then [0x5C, 0x72]
  else if c = 0x22 then [0x5C, 0x22]
  else if c = 0x5C then [0x5C, 0x5C]
  else if c < 0x20 then UnicodeEscape c
  else if isLeadingSurrogate c || isTrailingSurrogate c then UnicodeEscape c
  else [c]

/-- The body of `QuoteJSONString`: the string is read code point by code point, so that a
leading surrogate followed by a trailing one is one code point, copied unchanged. -/
def quoteBody : JSString → JSString
  | [] => []
  | [c] => quoteUnit c
  | c :: d :: rest =>
    if isLeadingSurrogate c && isTrailingSurrogate d then c :: d :: quoteBody rest
    else quoteUnit c ++ quoteBody (d :: rest)

/-- The operation `QuoteJSONString(value)`. -/
def QuoteJSONString (value : JSString) : JSString :=
  [0x22] ++ quoteBody value ++ [0x22]

/-- The operation `SerializeJSONObject` for an object whose own enumerable properties, in order, are
`props`, all with string values (`SerializeJSONProperty` of a string is `QuoteJSONString`). -/
def SerializeJSONObject (gap indent : JSString) (props : List (JSString × JSString)) :
    JSString :=
  let stepback := indent
  let indent := indent ++ gap
  let members : List JSString := props.map fun kv =>
    QuoteJSONString kv.1 ++ [0x3A] ++ (if gap = [] then [] else [0x20]) ++ QuoteJSONString kv.2
  if members = [] then [0x7B, 0x7D]
  else if gap = [] then [0x7B] ++ List.intercalate [0x2C] members ++ [0x7D]
  else
    [0x7B] ++ [0x0A] ++ indent ++ List.intercalate ([0x2C, 0x0A] ++ indent) members
      ++ [0x0A] ++ stepback ++ [0x7D]

/-- The call `JSON.stringify(value, null, space)` for such an object and a numeric `space`: the gap is
`min(10, space)` spaces. -/
def JSONstringify (props : List (JSString × JSString)) (space : Nat) : JSString :=
  SerializeJSONObject (List.replicate (min 10 space) 0x20) [] props

/-! ## `JSON.parse` (ECMA-404 grammar) on objects whose member values are strings -/

/-- Value of a hexadecimal digit. -/
def hexValue (c : Nat) : Option Nat :=
  if 0x30 ≤ c ∧ c ≤ 0x39 then some (c - 0x30)
  else if 0x61 ≤ c ∧ c ≤ 0x66 then some (c - 0x61 + 10)
  else if 0x41 ≤ c ∧ c ≤ 0x46 then some (c - 0x41 + 10)
  else none

/-- The character a two-character escape stands for (`\uXXXX` apart). -/
def unescape (e : Nat) : Option Nat :=
  if e = 0x22 then some 0x22
  else if e = 0x5C then some 0x5C
  else if e = 0x2F then some 0x2F
  else if e = 0x62 then some 0x08
  else if e = 0x66 then some 0x0C
  else if e = 0x6E then some 0x0A
  else if e = 0x72 then some 0x0D
  else if e = 0x74 then some 0x09
  else none

/-- The code unit four hexadecimal digits denote. -/
def hex4 (h1 h2 h3 h4 : Nat) : Option Nat :=
  match hexValue h1, hexValue h2, hexValue h3, hexValue h4 with
  | some a, some b, some c, some d => some (a * 4096 + b * 256 + c * 16 + d)
  | _, _, _, _ => none

/-- Read a JSON string after its opening quote: the string denoted, and the input after
the closing quote. Control characters must be escaped. -/
def parseStringBody : List Nat → Option (JSString × List Nat)
  | [] => none
  | c :: rest =>
    if c = 0x22 then some ([], rest)
    else if c = 0x5C then
      match rest with
      | [] => none
      | e :: rest1 =>
        if e = 0x75 then
          match rest1 with
          | h1 :: h2 :: h3 :: h4 :: rest2 =>
            match hex4 h1 h2 h3 h4, parseStringBody rest2 with
            | some v, some (s, out) => some (v :: s, out)
            | _, _ => none
          | _ => none
        else
          match unescape e, parseStringBody rest1 with
          | some v, some (s, out) => some (v :: s, out)
          | _, _ => none
    else if c < 0x20 then none
    else
      match parseStringBody rest with
      | some (s, out) => some (c :: s, out)
      | none => none

/-- Read a JSON string. -/
def parseString : List Nat → Option (JSString × List Nat)
  | [] => none
  | c :: rest => if c = 0x22 then parseStringBody rest else none

/-- Drop leading JSON whitespace (space, tab, line feed, carriage return). -/
def skipWs : List Nat → List Nat
  | [] => []
  | c :: rest =>
    if c = 0x20 ∨ c = 0x09 ∨ c = 0x0A ∨ c = 0x0D then skipWs rest else c :: rest

/-- Read `ws string ws : ws string ws` and then either `,` and more members or the closing
brace; the members in order, and the input after the brace. -/
def parseMembers : Nat → List Nat → Option (List (JSString × JSString) × List Nat)
  | 0, _ => none
  | fuel + 1, inp =>
    match parseString (skipWs inp) with
    | none => none
    | some (key, r1) =>
      match skipWs r1 with
      | [] => none
      | c :: r2 =>
        if c = 0x3A then
          match parseString (skipWs r2) with
          | none => none
          | some (value, r3) =>
            match skipWs r3 with
            | [] => none
            | d :: r4 =>
              if d = 0x7D then some ([(key, value)], r4)
              else if d = 0x2C then
                match parseMembers fuel r4 with
                | some (more, out) => some ((key, value) :: more, out)
                | none => none
              else none
        else none

/-- The call `JSON.parse(text)` where `text` is one object whose member values are all strings: its
members in source order (`none` for any other text). -/
def JSONparse (text : JSString) : Option (List (JSString × JSString)) :=
  match skipWs text with
  | [] => none
  | c :: r =>
    if c = 0x7B then
      match skipWs r with
      | [] => none
      | d :: r1 =>
        if d = 0x7D then (if skipWs r1 = [] then some [] else none)
        else
          match parseMembers text.length (d :: r1) with
          | some (members, out) => if skipWs out = [] then some members else none
          | none => none
    else none

/-- Property `key` of a parsed object: a later member overrides an earlier one. -/
def getProperty (members : List (JSString × JSString)) (key : JSString) : Option JSString :=
  (members.reverse.find? fun kv => kv.1 = key).map Prod.snd

/-! ## `path.join` (POSIX) -/

/-- An absolute, normalised POSIX path: its segments from the root (`[]` is `/`). -/
abbrev Path := List JSString

/-- The call `path.join(base, ...segments)` for an absolute normalised `base` and segments without a
separator: `..` removes the last segment (and stays at the root), `.` and the empty segment
are dropped, any other segment is appended. -/
def pathJoin (base : Path) (segments : List JSString) : Path :=
  segments.foldl
    (fun acc seg =>
      if seg = lit ".." then acc.dropLast
      else if seg = lit "." ∨ seg = [] then acc
      else acc ++ [seg])
    base

/-- The string of a path, as a template literal prints it. -/
def Path.toJSString (p : Path) : JSString :=
  if p = [] then lit "/" else (p.map fun seg => lit "/" ++ seg).flatten

/-! ## Filesystem -/

/-- A filesystem node: a regular file with its content (the string `writeFileSync` was
given; its UTF-8 encoding is a function of it), or a directory. -/
inductive Node where
  | file (data : JSString)
  | dir
deriving DecidableEq

/-- A filesystem state: what is at each path, if anything. -/
abbrev FS := Path → Option Node

/-- The filesystem with the root directory only. -/
def FS.empty : FS := fun p => if p = [] then some Node.dir else none

/-- Replace what is at path `p`. -/
def FS.set (fs : FS) (p : Path) (n : Node) : FS := fun q => if q = p then some n else fs q

/-- Whether the node is a regular file. -/
def isFile : Option Node → Bool
  | some (Node.file _) => true
  | _ => false

/-- The call `fs.existsSync(p)`: whether something is at `p`; it never throws. -/
def existsSync (fs : FS) (p : Path) : Bool := (fs p).isSome

/-- The call `fs.mkdirSync(p, { recursive: true })`. An environment fault (permissions, quota)
throws and creates nothing. Otherwise the call throws `EEXIST` when `p` is a regular file and
`ENOTDIR` when a path of the chain from the root to `p` is one, and else makes every path of
the chain a directory. -/
def mkdirSyncRecursive (fault : Option JSError) (fs : FS) (p : Path) : Except JSError FS :=
  match fault with
  | some e => Except.error e
  | none =>
    if isFile (fs p) then Except.error ⟨lit "EEXIST"⟩
    else if p.inits.any (fun q => isFile (fs q)) then Except.error ⟨lit "ENOTDIR"⟩
    else Except.ok (fun q => if q ∈ p.inits then some Node.dir else fs q)

/-- The call `fs.writeFileSync(f, data)`. It throws `EISDIR` when `f` is a directory, `ENOENT`
when its parent is missing and `ENOTDIR` when its parent is a regular file. Otherwise the file
is created or truncated and written: completely, or, on an environment fault (disk full), the
call throws and leaves either the old node or a file with whatever was written. -/
def writeFileSync (fault : Option (JSError × Option JSString)) (fs : FS) (f : Path)
    (data : JSString) : Except JSError Unit × FS :=
  if f = [] ∨ fs f = some Node.dir then (Except.error ⟨lit "EISDIR"⟩, fs)
  else
    match fs f.dropLast with
    | none => (Except.error ⟨lit "ENOENT"⟩, fs)
    | some (Node.file _) => (Except.error ⟨lit "ENOTDIR"⟩, fs)
    | some Node.dir =>
      match fault with
      | none => (Except.ok (), fs.set f (Node.file data))
      | some (e, none) => (Except.error e, fs)
      | some (e, some written) => (Except.error e, fs.set f (Node.file written))

/-! ## The chain-interaction library -/

/-- The deployed contract handle `spaceVerse`: its `address`, the outcome of awaiting
`deployed()`, and the outcome of `interface.format(ethers.utils.FormatTypes.json)` (a string
in ethers v5; evaluating the global `ethers` is part of that step). -/
structure Contract where
  address : JSString
  deployed : Except JSError Unit
  interfaceFormat : Except JSError JSString

/-- The contract factory `SpaceVerse`: the outcome of awaiting `deploy()`. -/
structure ContractFactory where
  deploy : Except JSError Contract

/-- What the script's collaborators do in one run. -/
structure Env where
  /-- Outcome of awaiting `hre.ethers.getContractFactory(name)`. -/
  getContractFactory : JSString → Except JSError ContractFactory
  /-- Environment fault of `mkdirSync`, if any. -/
  mkdirFault : Option JSError
  /-- Environment fault of `writeFileSync`, if any, with what it left in the file. -/
  writeFault : Option (JSError × Option JSString)

/-! ## Runs -/

/-- One observable action of a run. A call that can throw or reject is recorded with the
value it threw (`none` when it returned or resolved). -/
inductive Event where
  | consoleLog (msg : JSString)
  | consoleError (e : JSError)
  | getContractFactory (name : JSString) (thrown : Option JSError)
  | deploy (thrown : Option JSError)
  | deployed (thrown : Option JSError)
  | readAddress
  | interfaceFormat (thrown : Option JSError)
  | existsSync (p : Path) (result : Bool)
  | mkdirSync (p : Path) (thrown : Option JSError)
  | writeFileSync (p : Path) (data : JSString) (thrown : Option JSError)
deriving DecidableEq

/-- The state a run threads: the filesystem, the actions so far (oldest first) and
`process.exitCode` (0 while unset). -/
structure World where
  fs : FS
  trace : List Event
  exitCode : Nat

/-- The world before a run. -/
def World.init (fs : FS) : World := ⟨fs, [], 0⟩

/-- Record an action. -/
def World.emit (w : World) (e : Event) : World := { w with trace := w.trace ++ [e] }

/-- The directory the script writes into:
`path.join(__dirname, "..", "..", "spaceverse", "assets", "contracts")`. -/
def outputDir (dirname : Path) : Path :=
  pathJoin dirname [lit "..", lit "..", lit "spaceverse", lit "assets", lit "contracts"]

/-- The file the script writes: `path.join(outputDir, "SpaceVerse.json")`. -/
def outputFile (dirname : Path) : Path := pathJoin (outputDir dirname) [lit "SpaceVerse.json"]

/-- The object literal `contractInfo`. -/
def contractInfo (address abi : JSString) : List (JSString × JSString) :=
  [(lit "address", address), (lit "abi", abi)]

/-- Lines 23 to 26: `if (!fs.existsSync(outputDir)) fs.mkdirSync(outputDir, {recursive: true})`. -/
def ensureOutputDir (env : Env) (dirname : Path) (w : World) : Except JSError Unit × World :=
  let found := existsSync w.fs (outputDir dirname)
  let w := w.emit (Event.existsSync (outputDir dirname) found)
  if found then (Except.ok (), w)
  else
    match mkdirSyncRecursive env.mkdirFault w.fs (outputDir dirname) with
    | Except.error e => (Except.error e, w.emit (Event.mkdirSync (outputDir dirname) (some e)))
    | Except.ok fs => (Except.ok (), { w.emit (Event.mkdirSync (outputDir dirname) none) with fs := fs })

/-- Lines 28 to 31: `fs.writeFileSync(path.join(outputDir, "SpaceVerse.json"), data)`. -/
def writeArtifact (env : Env) (dirname : Path) (data : JSString) (w : World) :
    Except JSError Unit × World :=
  match writeFileSync env.writeFault w.fs (outputFile dirname) data with
  | (Except.error e, fs) =>
    (Except.error e, { w.emit (Event.writeFileSync (outputFile dirname) data (some e)) with fs := fs })
  | (Except.ok _, fs) =>
    (Except.ok (), { w.emit (Event.writeFileSync (outputFile dirname) data none) with fs := fs })

/-- The async function `main`: its completion (resolved, or rejected with the thrown value)
and the world it leaves. -/
def main (env : Env) (dirname : Path) (w : World) : Except JSError Unit × World :=
  let w := w.emit (Event.consoleLog (lit "Deploying SpaceVerse contract..."))
  match env.getContractFactory (lit "SpaceVerse") with
  | Except.error e => (Except.error e, w.emit (Event.getContractFactory (lit "SpaceVerse") (some e)))
  | Except.ok SpaceVerse =>
    let w := w.emit (Event.getContractFactory (lit "SpaceVerse") none)
    match SpaceVerse.deploy with
    | Except.error e => (Except.error e, w.emit (Event.deploy (some e)))
    | Except.ok spaceVerse =>
      let w := w.emit (Event.deploy none)
      match spaceVerse.deployed with
      | Except.error e => (Except.error e, w.emit (Event.deployed (some e)))
      | Except.ok _ =>
        let w := w.emit (Event.deployed none)
        let w := w.emit Event.readAddress
        let w := w.emit (Event.consoleLog (lit "SpaceVerse deployed to: " ++ spaceVerse.address))
        let w := w.emit Event.readAddress
        match spaceVerse.interfaceFormat with
        | Except.error e => (Except.error e, w.emit (Event.interfaceFormat (some e)))
        | Except.ok abi =>
          let w := w.emit (Event.interfaceFormat none)
          match ensureOutputDir env dirname w with
          | (Except.error e, w) => (Except.error e, w)
          | (Except.ok _, w) =>
            match writeArtifact env dirname (JSONstringify (contractInfo spaceVerse.address abi) 2) w with
            | (Except.error e, w) => (Except.error e, w)
            | (Except.ok _, w) =>
              (Except.ok (), w.emit (Event.consoleLog
                (lit "Contract info saved to " ++ (outputDir dirname).toJSString
                  ++ lit "/SpaceVerse.json")))

/-- The script's last statement: `main().catch(error => { console.error(error);
process.exitCode = 1 })`. -/
def script (env : Env) (dirname : Path) (w : World) : World :=
  match main env dirname w with
  | (Except.ok _, w) => w
  | (Except.error e, w) => { w.emit (Event.consoleError e) with exitCode := 1 }

/-- One run of the script from filesystem `fs`. -/
def run (env : Env) (dirname : Path) (fs : FS) : World := script env dirname (World.init fs)


/-! ## Vocabulary of the statements -/

/-- A filesystem call. -/
def Event.isFsOp : Event → Bool
  | Event.existsSync _ _ => true
  | Event.mkdirSync _ _ => true
  | Event.writeFileSync _ _ _ => true
  | _ => false

/-- A read of the contract handle's `address` or `interface`. -/
def Event.isContractRead : Event → Bool
  | Event.readAddress => true
  | Event.interfaceFormat _ => true
  | _ => false

/-- A call that reaches the network: `deploy()` or `deployed()`. -/
def Event.isNetworkCall : Event → Bool
  | Event.deploy _ => true
  | Event.deployed _ => true
  | _ => false

/-- A call of `writeFileSync`. -/
def Event.isWrite : Event → Bool
  | Event.writeFileSync _ _ _ => true
  | _ => false

/-- A call of `mkdirSync`. -/
def Event.isMkdir : Event → Bool
  | Event.mkdirSync _ _ => true
  | _ => false

/-- The value a call threw or rejected with, if it did. -/
def Event.thrown : Event → Option JSError
  | Event.getContractFactory _ r => r
  | Event.deploy r => r
  | Event.deployed r => r
  | Event.interfaceFormat r => r
  | Event.mkdirSync _ r => r
  | Event.writeFileSync _ _ r => r
  | _ => none

/-- The address and interface schema of a deployment that was confirmed and formatted. -/
def deploymentResult (env : Env) : Option (JSString × JSString) :=
  match env.getContractFactory (lit "SpaceVerse") with
  | Except.error _ => none
  | Except.ok factory =>
    match factory.deploy with
    | Except.error _ => none
    | Except.ok c =>
      match c.deployed, c.interfaceFormat with
      | Except.ok _, Except.ok abi => some (c.address, abi)
      | _, _ => none

/-- The actions of a run up to the read of the interface, for a confirmed deployment. -/
def confirmedTrace (address : JSString) : List Event :=
  [Event.consoleLog (lit "Deploying SpaceVerse contract..."),
    Event.getContractFactory (lit "SpaceVerse") none, Event.deploy none, Event.deployed none,
    Event.readAddress, Event.consoleLog (lit "SpaceVerse deployed to: " ++ address),
    Event.readAddress]

/-- The end of a run that reaches `writeFileSync` with filesystem `fs` and trace `t`. -/
def writeAndFinish (env : Env) (dirname : Path) (data : JSString) (fs : FS) (t : List Event) :
    World :=
  match writeFileSync env.writeFault fs (outputFile dirname) data with
  | (Except.ok _, fs2) =>
    ⟨fs2, t ++ [Event.writeFileSync (outputFile dirname) data none,
      Event.consoleLog (lit "Contract info saved to " ++ (outputDir dirname).toJSString
        ++ lit "/SpaceVerse.json")], 0⟩
  | (Except.error e, fs2) =>
    ⟨fs2, t ++ [Event.writeFileSync (outputFile dirname) data (some e), Event.consoleError e], 1⟩

/-- A syntactically valid chain address: `0x` followed by 40 hexadecimal digits. -/
def isChainAddress (a : JSString) : Bool :=
  a.take 2 = [0x30, 0x78] && (a.drop 2).length = 40 &&
    (a.drop 2).all fun c =>
      (decide (0x30 ≤ c) && decide (c ≤ 0x39)) || (decide (0x61 ≤ c) && decide (c ≤ 0x66))
        || (decide (0x41 ≤ c) && decide (c ≤ 0x46))

/-- No call made during the run threw or rejected. -/
def World.allCallsSucceeded (w : World) : Bool := w.trace.all fun ev => ev.thrown.isNone

/-- The successful completion of the `deployed()` wait. -/
def Event.isConfirmation : Event → Bool
  | Event.deployed none => true
  | _ => false

/-- Checker: every filesystem call and contract read of the trace comes after a successful
`deployed()` wait (`seen` tells whether one came before the trace). -/
def guardedAfterConfirmation (seen : Bool) : List Event → Bool
  | [] => true
  | ev :: rest =>
    (seen || !(ev.isFsOp || ev.isContractRead))
      && guardedAfterConfirmation (seen || ev.isConfirmation) rest

/-! ## Concrete runs used as witnesses -/

/-- A script directory `/w/repo/contracts`. -/
def exampleDirname : Path := [lit "w", lit "repo", lit "contracts"]

/-- A contract handle whose confirmation and interface formatting succeed. -/
def exampleContract : Contract :=
  ⟨lit "0x5FbDB2315678afecb367f032d93F642f64180aa3", Except.ok (), Except.ok (lit "[]")⟩

/-- An environment in which every call succeeds. -/
def exampleEnv : Env := ⟨fun _ => Except.ok ⟨Except.ok exampleContract⟩, none, none⟩

/-- An environment whose `getContractFactory` rejects. -/
def exampleEnvNoFactory : Env := ⟨fun _ => Except.error ⟨lit "HH700"⟩, none, none⟩

/-- An environment whose `deploy()` rejects. -/
def exampleEnvNoDeploy : Env :=
  ⟨fun _ => Except.ok ⟨Except.error ⟨lit "insufficient funds"⟩⟩, none, none⟩

/-- A second environment in which every call succeeds, with another deployment result. -/
def exampleEnvSecond : Env :=
  ⟨fun _ => Except.ok ⟨Except.ok
    ⟨lit "0xe7f1725E7734CE288F8367e1Bb143E90bb3F0512", Except.ok (),
      Except.ok (lit "[\x7b\"type\":\"constructor\"\x7d]")⟩⟩, none, none⟩

/-! ## Shapes of a run -/

theorem run_factory_error {env : Env} (dirname : Path) (fs : FS) {e : JSError}
    (h : env.getContractFactory (lit "SpaceVerse") = Except.error e) :
    run env dirname fs = ⟨fs, [Event.consoleLog (lit "Deploying SpaceVerse contract..."),
      Event.getContractFactory (lit "SpaceVerse") (some e), Event.consoleError e], 1⟩ := by
  simp [run, script, main, h, World.emit, World.init]

theorem run_deploy_error {env : Env} (dirname : Path) (fs : FS) {F : ContractFactory}
    {e : JSError} (hF : env.getContractFactory (lit "SpaceVerse") = Except.ok F)
    (hD : F.deploy = Except.error e) :
    run env dirname fs = ⟨fs, [Event.consoleLog (lit "Deploying SpaceVerse contract..."),
      Event.getContractFactory (lit "SpaceVerse") none, Event.deploy (some e),
      Event.consoleError e], 1⟩ := by
  simp [run, script, main, hF, hD, World.emit, World.init]

theorem run_deployed_error {env : Env} (dirname : Path) (fs : FS) {F : ContractFactory}
    {c : Contract} {e : JSError} (hF : env.getContractFactory (lit "SpaceVerse") = Except.ok F)
    (hD : F.deploy = Except.ok c) (hW : c.deployed = Except.error e) :
    run env dirname fs = ⟨fs, [Event.consoleLog (lit "Deploying SpaceVerse contract..."),
      Event.getContractFactory (lit "SpaceVerse") none, Event.deploy none, Event.deployed (some e),
      Event.consoleError e], 1⟩ := by
  simp [run, script, main, hF, hD, hW, World.emit, World.init]

theorem run_format_error {env : Env} (dirname : Path) (fs : FS) {F : ContractFactory}
    {c : Contract} {e : JSError} (hF : env.getContractFactory (lit "SpaceVerse") = Except.ok F)
    (hD : F.deploy = Except.ok c) (hW : c.deployed = Except.ok ())
    (hS : c.interfaceFormat = Except.error e) :
    run env dirname fs = ⟨fs, confirmedTrace c.address
      ++ [Event.interfaceFormat (some e), Event.consoleError e], 1⟩ := by
  simp [run, script, main, hF, hD, hW, hS, World.emit, World.init, confirmedTrace]

theorem run_dir_exists {env : Env} (dirname : Path) (fs : FS) {F : ContractFactory}
    {c : Contract} {s : JSString} (hF : env.getContractFactory (lit "SpaceVerse") = Except.ok F)
    (hD : F.deploy = Except.ok c) (hW : c.deployed = Except.ok ())
    (hS : c.interfaceFormat = Except.ok s) (hX : existsSync fs (outputDir dirname) = true) :
    run env dirname fs = writeAndFinish env dirname (JSONstringify (contractInfo c.address s) 2) fs
      (confirmedTrace c.address
        ++ [Event.interfaceFormat none, Event.existsSync (outputDir dirname) true]) := by
  simp only [run, script, main, hF, hD, hW, hS, World.emit, World.init, confirmedTrace,
    ensureOutputDir, writeArtifact, writeAndFinish, hX, if_true]
  rcases hwr : writeFileSync env.writeFault fs (outputFile dirname)
    (JSONstringify (contractInfo c.address s) 2) with ⟨r, fs2⟩
  cases r <;> simp [hwr]

theorem run_mkdir_error {env : Env} (dirname : Path) (fs : FS) {F : ContractFactory}
    {c : Contract} {s : JSString} {e : JSError}
    (hF : env.getContractFactory (lit "SpaceVerse") = Except.ok F)
    (hD : F.deploy = Except.ok c) (hW : c.deployed = Except.ok ())
    (hS : c.interfaceFormat = Except.ok s) (hX : existsSync fs (outputDir dirname) = false)
    (hM : mkdirSyncRecursive env.mkdirFault fs (outputDir dirname) = Except.error e) :
    run env dirname fs = ⟨fs, confirmedTrace c.address
      ++ [Event.interfaceFormat none, Event.existsSync (outputDir dirname) false,
        Event.mkdirSync (outputDir dirname) (some e), Event.consoleError e], 1⟩ := by
  simp [run, script, main, hF, hD, hW, hS, World.emit, World.init, confirmedTrace,
    ensureOutputDir, hX, hM]

theorem run_mkdir_ok {env : Env} (dirname : Path) (fs : FS) {F : ContractFactory}
    {c : Contract} {s : JSString} {fs1 : FS}
    (hF : env.getContractFactory (lit "SpaceVerse") = Except.ok F)
    (hD : F.deploy = Except.ok c) (hW : c.deployed = Except.ok ())
    (hS : c.interfaceFormat = Except.ok s) (hX : existsSync fs (outputDir dirname) = false)
    (hM : mkdirSyncRecursive env.mkdirFault fs (outputDir dirname) = Except.ok fs1) :
    run env dirname fs = writeAndFinish env dirname (JSONstringify (contractInfo c.address s) 2) fs1
      (confirmedTrace c.address
        ++ [Event.interfaceFormat none, Event.existsSync (outputDir dirname) false,
          Event.mkdirSync (outputDir dirname) none]) := by
  simp only [run, script, main, hF, hD, hW, hS, World.emit, World.init, confirmedTrace,
    ensureOutputDir, writeArtifact, writeAndFinish, hX, hM]
  rcases hwr : writeFileSync env.writeFault fs1 (outputFile dirname)
    (JSONstringify (contractInfo c.address s) 2) with ⟨r, fs2⟩
  cases r <;> simp [hwr]

/-! ## Filesystem calls -/

theorem writeFileSync_frame (fault : Option (JSError × Option JSString)) (fs : FS) (f : Path)
    (data : JSString) (q : Path) (hq : q ≠ f) : (writeFileSync fault fs f data).2 q = fs q := by
  unfold writeFileSync
  split_ifs
  · rfl
  · split
    · rfl
    · rfl
    · split <;> simp [FS.set, hq]

theorem writeFileSync_ok {fault : Option (JSError × Option JSString)} {fs : FS} {f : Path}
    {data : JSString} {u : Unit} {fs2 : FS}
    (h : writeFileSync fault fs f data = (Except.ok u, fs2)) :
    fs2 = fs.set f (Node.file data) ∧ fs f.dropLast = some Node.dir := by
  unfold writeFileSync at h
  split_ifs at h
  · simp at h
  · split at h
    · simp at h
    · simp at h
    · rename_i hdir
      split at h
      · simp at h
        exact ⟨h.symm, hdir⟩
      · simp at h
      · simp at h

theorem mkdirSyncRecursive_ok {fault : Option JSError} {fs fs1 : FS} {p : Path}
    (h : mkdirSyncRecursive fault fs p = Except.ok fs1) :
    fs1 = fun q => if q ∈ p.inits then some Node.dir else fs q := by
  unfold mkdirSyncRecursive at h
  split at h
  · simp at h
  · split_ifs at h
    exact (Except.ok.inj h).symm

theorem writeAndFinish_frame (env : Env) (dirname : Path) (data : JSString) (fs : FS)
    (t : List Event) (q : Path) (hq : q ≠ outputFile dirname) :
    (writeAndFinish env dirname data fs t).fs q = fs q := by
  have := writeFileSync_frame env.writeFault fs (outputFile dirname) data q hq
  unfold writeAndFinish
  split <;> rename_i h <;> rw [h] at this <;> exact this

theorem writeAndFinish_trace (env : Env) (dirname : Path) (data : JSString) (fs : FS)
    (t : List Event) :
    (writeAndFinish env dirname data fs t
        = ⟨fs.set (outputFile dirname) (Node.file data),
            t ++ [Event.writeFileSync (outputFile dirname) data none,
              Event.consoleLog (lit "Contract info saved to " ++ (outputDir dirname).toJSString
                ++ lit "/SpaceVerse.json")], 0⟩
      ∧ fs (outputFile dirname).dropLast = some Node.dir)
    ∨ ∃ e fs2, writeAndFinish env dirname data fs t
        = ⟨fs2, t ++ [Event.writeFileSync (outputFile dirname) data (some e),
            Event.consoleError e], 1⟩ := by
  unfold writeAndFinish
  split
  · rename_i u fs2 h
    left
    rw [(writeFileSync_ok h).1]
    exact ⟨rfl, (writeFileSync_ok h).2⟩
  · rename_i e fs2 h
    exact Or.inr ⟨e, fs2, rfl⟩

/-! ## `JSON.parse` after `JSON.stringify` -/

theorem hexValue_hexDigit (d : Nat) (hd : d < 16) : hexValue (hexDigit d) = some d := by
  interval_cases d <;> rfl

theorem hex4_UnicodeEscape (c : Nat) (hc : c < 65536) :
    hex4 (hexDigit (c / 4096 % 16)) (hexDigit (c / 256 % 16)) (hexDigit (c / 16 % 16))
      (hexDigit (c % 16)) = some c := by
  simp only [hex4, hexValue_hexDigit _ (Nat.mod_lt _ (by decide : 16 > 0))]
  congr 1
  omega

theorem parseStringBody_UnicodeEscape (c : Nat) (hc : c < 65536) (tail : List Nat) :
    parseStringBody (UnicodeEscape c ++ tail)
      = match parseStringBody tail with
        | some (s, out) => some (c :: s, out)
        | none => none := by
  simp only [UnicodeEscape, List.cons_append, List.nil_append]
  rw [parseStringBody.eq_def]
  simp only [show (0x5C : Nat) ≠ 0x22 by decide, if_false, if_true, hex4_UnicodeEscape c hc]
  cases parseStringBody tail with
  | none => rfl
  | some p => rfl

theorem parseStringBody_plain (c : Nat) (h1 : c ≠ 0x22) (h2 : c ≠ 0x5C) (h3 : ¬ c < 0x20)
    (tail : List Nat) :
    parseStringBody (c :: tail)
      = match parseStringBody tail with
        | some (s, out) => some (c :: s, out)
        | none => none := by
  rw [parseStringBody.eq_def]
  simp only [if_neg h1, if_neg h2, if_neg h3]

theorem parseStringBody_escape (e v : Nat) (he : e ≠ 0x75) (hv : unescape e = some v)
    (tail : List Nat) :
    parseStringBody (0x5C :: e :: tail)
      = match parseStringBody tail with
        | some (s, out) => some (v :: s, out)
        | none => none := by
  rw [parseStringBody.eq_def]
  simp only [show (0x5C : Nat) ≠ 0x22 by decide, if_false, if_true, if_neg he, hv]
  cases parseStringBody tail with
  | none => rfl
  | some p => rfl

theorem parseStringBody_quoteUnit (c : Nat) (tail : List Nat) :
    parseStringBody (quoteUnit c ++ tail)
      = match parseStringBody tail with
        | some (s, out) => some (c :: s, out)
        | none => none := by
  unfold quoteUnit
  split_ifs with h1 h2 h3 h4 h5 h6 h7 h8 h9
  · subst h1; exact parseStringBody_escape _ _ (by decide) (by rfl) tail
  · subst h2; exact parseStringBody_escape _ _ (by decide) (by rfl) tail
  · subst h3; exact parseStringBody_escape _ _ (by decide) (by rfl) tail
  · subst h4; exact parseStringBody_escape _ _ (by decide) (by rfl) tail
  · subst h5; exact parseStringBody_escape _ _ (by decide) (by rfl) tail
  · subst h6; exact parseStringBody_escape _ _ (by decide) (by rfl) tail
  · subst h7; exact parseStringBody_escape _ _ (by decide) (by rfl) tail
  · exact parseStringBody_UnicodeEscape c (by omega) tail
  · refine parseStringBody_UnicodeEscape c ?_ tail
    simp only [isLeadingSurrogate, isTrailingSurrogate, Bool.or_eq_true, Bool.and_eq_true,
      decide_eq_true_eq] at h9
    omega
  · exact parseStringBody_plain c h6 h7 h8 tail

theorem parseStringBody_closing (rest : List Nat) :
    parseStringBody (0x22 :: rest) = some ([], rest) := by
  rw [parseStringBody.eq_def]
  simp

/-- Reading the body `QuoteJSONString` wrote, up to its closing quote, gives the string. -/
theorem parseStringBody_quoteBody (s : JSString) :
    ∀ rest, parseStringBody (quoteBody s ++ 0x22 :: rest) = some (s, rest) := by
  induction s using quoteBody.induct with
  | case1 => intro rest; rw [quoteBody, List.nil_append, parseStringBody_closing]
  | case2 c =>
    intro rest
    rw [quoteBody, parseStringBody_quoteUnit, parseStringBody_closing]
  | case3 c d rest hpair ih =>
    intro out
    rw [quoteBody, if_pos hpair]
    simp only [isLeadingSurrogate, isTrailingSurrogate, Bool.and_eq_true,
      decide_eq_true_eq] at hpair
    simp only [List.cons_append]
    rw [parseStringBody_plain c (by omega) (by omega) (by omega),
      parseStringBody_plain d (by omega) (by omega) (by omega), ih out]
  | case4 c d rest hpair ih =>
    intro out
    rw [quoteBody, if_neg hpair, List.append_assoc, parseStringBody_quoteUnit, ih out]

theorem parseString_QuoteJSONString (s : JSString) (rest : List Nat) :
    parseString (QuoteJSONString s ++ rest) = some (s, rest) := by
  simp only [QuoteJSONString, List.cons_append, List.nil_append, List.append_assoc,
    List.singleton_append, parseString, if_true]
  exact parseStringBody_quoteBody s rest

theorem skipWs_QuoteJSONString (s : JSString) (rest : List Nat) :
    skipWs (QuoteJSONString s ++ rest) = QuoteJSONString s ++ rest := by
  simp [QuoteJSONString, skipWs]

/-- A string without a quote, a backslash, a control character or a surrogate is quoted
unchanged. -/
theorem quoteBody_plain (s : JSString)
    (h : ∀ c ∈ s, c ≠ 0x22 ∧ c ≠ 0x5C ∧ 0x20 ≤ c ∧ c < 0xD800) : quoteBody s = s := by
  induction s using quoteBody.induct with
  | case1 => rfl
  | case2 c =>
    obtain ⟨h1, h2, h3, h4⟩ := h c (List.mem_singleton_self c)
    have hs : (isLeadingSurrogate c || isTrailingSurrogate c) = false := by
      simp only [isLeadingSurrogate, isTrailingSurrogate, Bool.or_eq_false_iff,
        Bool.and_eq_false_iff, decide_eq_false_iff_not]
      omega
    rw [quoteBody, quoteUnit, if_neg (by omega), if_neg (by omega), if_neg (by omega),
      if_neg (by omega), if_neg (by omega), if_neg h1, if_neg h2, if_neg (by omega), hs]
    rfl
  | case3 c d rest hpair _ =>
    obtain ⟨-, -, -, h4⟩ := h c (List.mem_cons_self _ _)
    simp only [isLeadingSurrogate, isTrailingSurrogate, Bool.and_eq_true,
      decide_eq_true_eq] at hpair
    omega
  | case4 c d rest hpair ih =>
    obtain ⟨h1, h2, h3, h4⟩ := h c (List.mem_cons_self _ _)
    have hs : (isLeadingSurrogate c || isTrailingSurrogate c) = false := by
      simp only [isLeadingSurrogate, isTrailingSurrogate, Bool.or_eq_false_iff,
        Bool.and_eq_false_iff, decide_eq_false_iff_not]
      omega
    rw [quoteBody, if_neg hpair, ih (fun x hx => h x (List.mem_cons_of_mem _ hx)),
      quoteUnit, if_neg (by omega), if_neg (by omega), if_neg (by omega),
      if_neg (by omega), if_neg (by omega), if_neg h1, if_neg h2, if_neg (by omega), hs]
    rfl

theorem skipWs_space (rest : List Nat) : skipWs (0x20 :: rest) = skipWs rest := by
  simp [skipWs]

theorem skipWs_newline (rest : List Nat) : skipWs (0x0A :: rest) = skipWs rest := by
  simp [skipWs]

theorem skipWs_colon (rest : List Nat) : skipWs (0x3A :: rest) = 0x3A :: rest := by
  simp [skipWs]

theorem skipWs_comma (rest : List Nat) : skipWs (0x2C :: rest) = 0x2C :: rest := by
  simp [skipWs]

theorem skipWs_open (rest : List Nat) : skipWs (0x7B :: rest) = 0x7B :: rest := by
  simp [skipWs]

theorem skipWs_close (rest : List Nat) : skipWs (0x7D :: rest) = 0x7D :: rest := by
  simp [skipWs]

theorem QuoteJSONString_cons (s : JSString) (rest : List Nat) :
    QuoteJSONString s ++ rest = 0x22 :: (quoteBody s ++ 0x22 :: rest) := by
  simp [QuoteJSONString]

/-- The two members `JSON.stringify` wrote with a two-space gap are read back. -/
theorem parseMembers_two (n : Nat) (k1 v1 k2 v2 : JSString) (out : List Nat) :
    parseMembers (n + 2)
        (QuoteJSONString k1 ++ (0x3A :: 0x20 :: (QuoteJSONString v1 ++ (0x2C :: 0x0A :: 0x20
          :: 0x20 :: (QuoteJSONString k2 ++ (0x3A :: 0x20 :: (QuoteJSONString v2
            ++ (0x0A :: 0x7D :: out))))))))
      = some ([(k1, v1), (k2, v2)], out) := by
  have step2 : parseMembers (n + 1)
      (0x0A :: 0x20 :: 0x20 :: (QuoteJSONString k2 ++ (0x3A :: 0x20 :: (QuoteJSONString v2
        ++ (0x0A :: 0x7D :: out)))))
      = some ([(k2, v2)], out) := by
    rw [parseMembers]
    simp only [skipWs_newline, skipWs_space, skipWs_QuoteJSONString,
      parseString_QuoteJSONString, skipWs_colon, skipWs_close, if_true]
  rw [parseMembers]
  simp only [skipWs_space, skipWs_QuoteJSONString, parseString_QuoteJSONString,
    skipWs_colon, skipWs_comma, if_true, step2,
    show ¬ ((0x2C : Nat) = 0x7D) by decide, if_false]

theorem JSONstringify_contractInfo_units (a s : JSString) :
    JSONstringify (contractInfo a s) 2
      = 0x7B :: 0x0A :: 0x20 :: 0x20 :: (QuoteJSONString (lit "address") ++ (0x3A :: 0x20
          :: (QuoteJSONString a ++ (0x2C :: 0x0A :: 0x20 :: 0x20 :: (QuoteJSONString (lit "abi")
            ++ (0x3A :: 0x20 :: (QuoteJSONString s ++ (0x0A :: 0x7D :: []))))))))  := by
  have hgap : List.replicate (min 10 2) 0x20 = [0x20, 0x20] := by decide
  simp [JSONstringify, SerializeJSONObject, contractInfo, hgap, List.intercalate]

/-- Parsing `JSON.stringify({address: a, abi: s}, null, 2)` gives the object with the
members `address: a` and `abi: s`. -/
theorem JSONparse_JSONstringify (a s : JSString) :
    JSONparse (JSONstringify (contractInfo a s) 2)
      = some [(lit "address", a), (lit "abi", s)] := by
  obtain ⟨n, hn⟩ : ∃ n, (JSONstringify (contractInfo a s) 2).length = n + 2 := by
    rw [JSONstringify_contractInfo_units]
    exact ⟨_, rfl⟩
  unfold JSONparse
  rw [hn, JSONstringify_contractInfo_units]
  simp only [skipWs_open, skipWs_newline, skipWs_space, skipWs_QuoteJSONString, if_true]
  rw [QuoteJSONString_cons (lit "address")]
  simp only [show ¬ ((0x22 : Nat) = 0x7D) by decide, if_false]
  rw [← QuoteJSONString_cons (lit "address"), parseMembers_two]
  simp [skipWs]

theorem getProperty_address (a s : JSString) :
    getProperty [(lit "address", a), (lit "abi", s)] (lit "address") = some a := by
  have h : lit "abi" ≠ lit "address" := by decide
  simp [getProperty, List.find?, h]

theorem isChainAddress_plain (a : JSString) (h : isChainAddress a = true) :
    ∀ c ∈ a, c ≠ 0x22 ∧ c ≠ 0x5C ∧ 0x20 ≤ c ∧ c < 0xD800 := by
  simp only [isChainAddress, Bool.and_eq_true, decide_eq_true_eq, List.all_eq_true,
    Bool.or_eq_true] at h
  obtain ⟨⟨h2, -⟩, hdigits⟩ := h
  intro c hc
  rw [← List.take_append_drop 2 a, List.mem_append] at hc
  rcases hc with hc | hc
  · rw [h2] at hc
    simp only [List.mem_cons, List.mem_singleton, List.not_mem_nil, or_false] at hc
    omega
  · have := hdigits c hc
    omega

/-- The seven ways a run can go, by the outcome of each call. -/
theorem run_cases (env : Env) (dirname : Path) (fs : FS) :
    (∃ e, env.getContractFactory (lit "SpaceVerse") = Except.error e)
    ∨ (∃ F e, env.getContractFactory (lit "SpaceVerse") = Except.ok F
        ∧ F.deploy = Except.error e)
    ∨ (∃ F c e, env.getContractFactory (lit "SpaceVerse") = Except.ok F
        ∧ F.deploy = Except.ok c ∧ c.deployed = Except.error e)
    ∨ (∃ F c e, env.getContractFactory (lit "SpaceVerse") = Except.ok F
        ∧ F.deploy = Except.ok c ∧ c.deployed = Except.ok ()
        ∧ c.interfaceFormat = Except.error e)
    ∨ (∃ F c s, env.getContractFactory (lit "SpaceVerse") = Except.ok F
        ∧ F.deploy = Except.ok c ∧ c.deployed = Except.ok ()
        ∧ c.interfaceFormat = Except.ok s ∧ existsSync fs (outputDir dirname) = true)
    ∨ (∃ F c s e, env.getContractFactory (lit "SpaceVerse") = Except.ok F
        ∧ F.deploy = Except.ok c ∧ c.deployed = Except.ok ()
        ∧ c.interfaceFormat = Except.ok s ∧ existsSync fs (outputDir dirname) = false
        ∧ mkdirSyncRecursive env.mkdirFault fs (outputDir dirname) = Except.error e)
    ∨ (∃ F c s fs1, env.getContractFactory (lit "SpaceVerse") = Except.ok F
        ∧ F.deploy = Except.ok c ∧ c.deployed = Except.ok ()
        ∧ c.interfaceFormat = Except.ok s ∧ existsSync fs (outputDir dirname) = false
        ∧ mkdirSyncRecursive env.mkdirFault fs (outputDir dirname) = Except.ok fs1) := by
  cases hF : env.getContractFactory (lit "SpaceVerse") with
  | error e => exact Or.inl ⟨e, rfl⟩
  | ok F =>
    cases hD : F.deploy with
    | error e => exact Or.inr (Or.inl ⟨F, e, rfl, hD⟩)
    | ok c =>
      cases hW : c.deployed with
      | error e => exact Or.inr (Or.inr (Or.inl ⟨F, c, e, rfl, hD, hW⟩))
      | ok u =>
        cases hS : c.interfaceFormat with
        | error e => exact Or.inr (Or.inr (Or.inr (Or.inl ⟨F, c, e, rfl, hD, hW, hS⟩)))
        | ok s =>
          cases hX : existsSync fs (outputDir dirname) with
          | true =>
            exact Or.inr (Or.inr (Or.inr (Or.inr (Or.inl ⟨F, c, s, rfl, hD, hW, hS, rfl⟩))))
          | false =>
            cases hM : mkdirSyncRecursive env.mkdirFault fs (outputDir dirname) with
            | error e =>
              exact Or.inr (Or.inr (Or.inr (Or.inr (Or.inr (Or.inl
                ⟨F, c, s, e, rfl, hD, hW, hS, rfl, rfl⟩)))))
            | ok fs1 =>
              exact Or.inr (Or.inr (Or.inr (Or.inr (Or.inr (Or.inr
                ⟨F, c, s, fs1, rfl, hD, hW, hS, rfl, rfl⟩)))))

/-! ## What `main` itself leaves untouched -/

theorem ensureOutputDir_exitCode {env : Env} {dirname : Path} {w w1 : World}
    {r : Except JSError Unit} (h : ensureOutputDir env dirname w = (r, w1)) :
    w1.exitCode = w.exitCode := by
  unfold ensureOutputDir at h
  simp only [World.emit] at h
  split_ifs at h
  · cases h; rfl
  · split at h <;> cases h <;> rfl

theorem writeArtifact_exitCode {env : Env} {dirname : Path} {data : JSString} {w w1 : World}
    {r : Except JSError Unit} (h : writeArtifact env dirname data w = (r, w1)) :
    w1.exitCode = w.exitCode := by
  unfold writeArtifact at h
  simp only [World.emit] at h
  split at h <;> cases h <;> rfl

theorem ensureOutputDir_no_consoleError {env : Env} {dirname : Path} {w w1 : World}
    {r : Except JSError Unit} (e : JSError) (h : ensureOutputDir env dirname w = (r, w1))
    (hw : Event.consoleError e ∉ w.trace) : Event.consoleError e ∉ w1.trace := by
  unfold ensureOutputDir at h
  simp only [World.emit] at h
  split_ifs at h
  · cases h; simpa using hw
  · split at h <;> cases h <;> simpa using hw

theorem writeArtifact_no_consoleError {env : Env} {dirname : Path} {data : JSString}
    {w w1 : World} {r : Except JSError Unit} (e : JSError)
    (h : writeArtifact env dirname data w = (r, w1))
    (hw : Event.consoleError e ∉ w.trace) : Event.consoleError e ∉ w1.trace := by
  unfold writeArtifact at h
  simp only [World.emit] at h
  split at h <;> cases h <;> simpa using hw

/-- The function `main` does not set `process.exitCode`. -/
theorem main_exitCode (env : Env) (dirname : Path) (w : World) :
    (main env dirname w).2.exitCode = w.exitCode := by
  unfold main
  split
  · rfl
  · split
    · rfl
    · split
      · rfl
      · split
        · rfl
        · dsimp only
          split
          · rename_i e w1 h
            have h1 := ensureOutputDir_exitCode h
            simp only [World.emit] at h1
            exact h1
          · rename_i u w1 h
            have h1 := ensureOutputDir_exitCode h
            simp only [World.emit] at h1
            split
            · rename_i e w2 h'
              have h2 := writeArtifact_exitCode h'
              simp only at h2 ⊢
              rw [h2, h1]
            · rename_i u' w2 h'
              have h2 := writeArtifact_exitCode h'
              simp only [World.emit] at h2 ⊢
              rw [h2, h1]

/-- The function `main` does not call `console.error`. -/
theorem main_no_consoleError (env : Env) (dirname : Path) (w : World) (e : JSError)
    (hw : Event.consoleError e ∉ w.trace) :
    Event.consoleError e ∉ (main env dirname w).2.trace := by
  unfold main
  split
  · simpa [World.emit] using hw
  · split
    · simpa [World.emit] using hw
    · split
      · simpa [World.emit] using hw
      · split
        · simpa [World.emit] using hw
        · dsimp only
          split
          · rename_i e1 w1 h
            exact ensureOutputDir_no_consoleError e h (by simpa [World.emit] using hw)
          · rename_i u w1 h
            have h1 := ensureOutputDir_no_consoleError e h (by simpa [World.emit] using hw)
            split
            · rename_i e2 w2 h'
              exact writeArtifact_no_consoleError e h' h1
            · rename_i u' w2 h'
              have h2 := writeArtifact_no_consoleError e h' h1
              simpa [World.emit] using h2

/-- The handler of `main().catch` runs exactly when `main` rejects, with the rejection. -/
theorem run_rejected_iff (env : Env) (dirname : Path) (fs : FS) (e : JSError) :
    (main env dirname (World.init fs)).1 = Except.error e
      ↔ ((run env dirname fs).exitCode = 1
          ∧ Event.consoleError e ∈ (run env dirname fs).trace) := by
  have hx := main_exitCode env dirname (World.init fs)
  have hc := main_no_consoleError env dirname (World.init fs) e (by simp [World.init])
  unfold run script
  rcases hmain : main env dirname (World.init fs) with ⟨r, w⟩
  rw [hmain] at hx hc
  cases r with
  | error e1 =>
    simp only [World.emit, List.mem_append, List.mem_singleton, Event.consoleError.injEq,
      true_and, Except.error.injEq]
    constructor
    · intro h; exact Or.inr h.symm
    · rintro (h | h)
      · exact absurd h hc
      · exact h.symm
  | ok u =>
    simp only [World.init] at hx
    simp [hx]

theorem isConfirmation_iff (ev : Event) : ev.isConfirmation = true ↔ ev = Event.deployed none := by
  cases ev <;> simp [Event.isConfirmation]
  rename_i r
  cases r <;> simp [Event.isConfirmation]

theorem guardedAfterConfirmation_sound (t : List Event) :
    ∀ (seen : Bool) (pre : List Event) (ev : Event) (post : List Event),
      guardedAfterConfirmation seen t = true → t = pre ++ ev :: post →
      (ev.isFsOp || ev.isContractRead) = true → seen = true ∨ Event.deployed none ∈ pre := by
  induction t with
  | nil => intro seen pre ev post _ h; simp at h
  | cons x rest ih =>
    intro seen pre ev post hchk hsplit hg
    simp only [guardedAfterConfirmation, Bool.and_eq_true] at hchk
    cases pre with
    | nil =>
      simp only [List.nil_append, List.cons.injEq] at hsplit
      obtain ⟨rfl, -⟩ := hsplit
      have h1 := hchk.1
      rw [hg] at h1
      simpa using h1
    | cons p pre =>
      simp only [List.cons_append, List.cons.injEq] at hsplit
      obtain ⟨rfl, hrest⟩ := hsplit
      rcases ih _ pre ev post hchk.2 hrest hg with h | h
      · rw [Bool.or_eq_true] at h
        rcases h with h | h
        · exact Or.inl h
        · exact Or.inr (by rw [(isConfirmation_iff x).1 h]; exact List.mem_cons_self _ _)
      · exact Or.inr (List.mem_cons_of_mem _ h)

theorem run_guardedAfterConfirmation (env : Env) (dirname : Path) (fs : FS) :
    guardedAfterConfirmation false (run env dirname fs).trace = true := by
  rcases run_cases env dirname fs with ⟨e, hF⟩ | ⟨F, e, hF, hD⟩ | ⟨F, c, e, hF, hD, hW⟩
    | ⟨F, c, e, hF, hD, hW, hS⟩ | ⟨F, c, s, hF, hD, hW, hS, hX⟩
    | ⟨F, c, s, e, hF, hD, hW, hS, hX, hM⟩ | ⟨F, c, s, fs1, hF, hD, hW, hS, hX, hM⟩
  · rw [run_factory_error dirname fs hF]; rfl
  · rw [run_deploy_error dirname fs hF hD]; rfl
  · rw [run_deployed_error dirname fs hF hD hW]; rfl
  · rw [run_format_error dirname fs hF hD hW hS]; rfl
  · rw [run_dir_exists dirname fs hF hD hW hS hX]
    rcases writeAndFinish_trace env dirname (JSONstringify (contractInfo c.address s) 2) fs
      (confirmedTrace c.address
        ++ [Event.interfaceFormat none, Event.existsSync (outputDir dirname) true])
      with ⟨h, -⟩ | ⟨e, fs2, h⟩ <;> rw [h] <;> rfl
  · rw [run_mkdir_error dirname fs hF hD hW hS hX hM]; rfl
  · rw [run_mkdir_ok dirname fs hF hD hW hS hX hM]
    rcases writeAndFinish_trace env dirname (JSONstringify (contractInfo c.address s) 2) fs1
      (confirmedTrace c.address
        ++ [Event.interfaceFormat none, Event.existsSync (outputDir dirname) false,
          Event.mkdirSync (outputDir dirname) none])
      with ⟨h, -⟩ | ⟨e, fs2, h⟩ <;> rw [h] <;> rfl

/-! ## The output path and the shape of the serialised object -/

theorem outputDir_eq (dirname : Path) :
    outputDir dirname
      = dirname.dropLast.dropLast ++ [lit "spaceverse", lit "assets", lit "contracts"] := by
  have h1 : lit "spaceverse" ≠ lit ".." := by decide
  have h2 : lit "assets" ≠ lit ".." := by decide
  have h3 : lit "contracts" ≠ lit ".." := by decide
  have h4 : ¬ (lit "spaceverse" = lit "." ∨ lit "spaceverse" = []) := by decide
  have h5 : ¬ (lit "assets" = lit "." ∨ lit "assets" = []) := by decide
  have h6 : ¬ (lit "contracts" = lit "." ∨ lit "contracts" = []) := by decide
  simp only [outputDir, pathJoin, List.foldl, if_true, if_neg h1, if_neg h2, if_neg h3,
    if_neg h4, if_neg h5, if_neg h6, List.append_assoc, List.singleton_append,
    List.cons_append, List.nil_append]

theorem outputFile_eq (dirname : Path) :
    outputFile dirname = outputDir dirname ++ [lit "SpaceVerse.json"] := by
  have h1 : lit "SpaceVerse.json" ≠ lit ".." := by decide
  have h2 : ¬ (lit "SpaceVerse.json" = lit "." ∨ lit "SpaceVerse.json" = []) := by decide
  simp only [outputFile, pathJoin, List.foldl, if_neg h1, if_neg h2]

theorem outputFile_dropLast (dirname : Path) :
    (outputFile dirname).dropLast = outputDir dirname := by
  rw [outputFile_eq, List.dropLast_concat]

theorem outputFile_not_in_chain (dirname : Path) :
    outputFile dirname ∉ (outputDir dirname).inits := by
  rw [List.mem_inits, outputFile_eq]
  intro h
  have := h.length_le
  simp at this

theorem JSONstringify_contractInfo (a s : JSString) :
    JSONstringify (contractInfo a s) 2
      = lit "\x7b\n  \"address\": " ++ QuoteJSONString a ++ lit ",\n  \"abi\": "
          ++ QuoteJSONString s ++ lit "\n\x7d" := by
  have hk1 : QuoteJSONString (lit "address") = lit "\"address\"" := by decide
  have hk2 : QuoteJSONString (lit "abi") = lit "\"abi\"" := by decide
  have hgap : List.replicate (min 10 2) 0x20 = [0x20, 0x20] := by decide
  have l1 : lit "\x7b\n  \"address\": " = [0x7B, 0x0A, 0x20, 0x20] ++ lit "\"address\"" ++ [0x3A, 0x20] := by
    decide
  have l2 : lit ",\n  \"abi\": " = [0x2C, 0x0A, 0x20, 0x20] ++ lit "\"abi\"" ++ [0x3A, 0x20] := by
    decide
  have l3 : lit "\n\x7d" = [0x0A, 0x7D] := by decide
  rw [l1, l2, l3]
  simp [JSONstringify, SerializeJSONObject, contractInfo, hk1, hk2, hgap, List.intercalate]

/-! ## Successful runs -/

theorem deploymentResult_eq {env : Env} {F : ContractFactory} {c : Contract} {s : JSString}
    (hF : env.getContractFactory (lit "SpaceVerse") = Except.ok F)
    (hD : F.deploy = Except.ok c) (hW : c.deployed = Except.ok ())
    (hS : c.interfaceFormat = Except.ok s) : deploymentResult env = some (c.address, s) := by
  simp [deploymentResult, hF, hD, hW, hS]

theorem run_succeeded_content {env : Env} {dirname : Path} {fs : FS}
    (hok : (run env dirname fs).allCallsSucceeded = true) :
    ∃ a s, deploymentResult env = some (a, s)
      ∧ (run env dirname fs).fs (outputFile dirname)
          = some (Node.file (JSONstringify (contractInfo a s) 2))
      ∧ (run env dirname fs).exitCode = 0 := by
  rcases run_cases env dirname fs with ⟨e, hF⟩ | ⟨F, e, hF, hD⟩ | ⟨F, c, e, hF, hD, hW⟩
    | ⟨F, c, e, hF, hD, hW, hS⟩ | ⟨F, c, s, hF, hD, hW, hS, hX⟩
    | ⟨F, c, s, e, hF, hD, hW, hS, hX, hM⟩ | ⟨F, c, s, fs1, hF, hD, hW, hS, hX, hM⟩
  · rw [run_factory_error dirname fs hF] at hok
    simp [World.allCallsSucceeded, Event.thrown] at hok
  · rw [run_deploy_error dirname fs hF hD] at hok
    simp [World.allCallsSucceeded, Event.thrown] at hok
  · rw [run_deployed_error dirname fs hF hD hW] at hok
    simp [World.allCallsSucceeded, Event.thrown] at hok
  · rw [run_format_error dirname fs hF hD hW hS] at hok
    simp [World.allCallsSucceeded, Event.thrown, confirmedTrace] at hok
  · refine ⟨c.address, s, deploymentResult_eq hF hD hW hS, ?_⟩
    rw [run_dir_exists dirname fs hF hD hW hS hX] at hok ⊢
    rcases writeAndFinish_trace env dirname (JSONstringify (contractInfo c.address s) 2) fs
      (confirmedTrace c.address
        ++ [Event.interfaceFormat none, Event.existsSync (outputDir dirname) true])
      with ⟨h, -⟩ | ⟨e, fs2, h⟩
    · rw [h]; simp [FS.set]
    · rw [h] at hok
      simp [World.allCallsSucceeded, Event.thrown, confirmedTrace] at hok
  · rw [run_mkdir_error dirname fs hF hD hW hS hX hM] at hok
    simp [World.allCallsSucceeded, Event.thrown, confirmedTrace] at hok
  · refine ⟨c.address, s, deploymentResult_eq hF hD hW hS, ?_⟩
    rw [run_mkdir_ok dirname fs hF hD hW hS hX hM] at hok ⊢
    rcases writeAndFinish_trace env dirname (JSONstringify (contractInfo c.address s) 2) fs1
      (confirmedTrace c.address
        ++ [Event.interfaceFormat none, Event.existsSync (outputDir dirname) false,
          Event.mkdirSync (outputDir dirname) none])
      with ⟨h, -⟩ | ⟨e, fs2, h⟩
    · rw [h]; simp [FS.set]
    · rw [h] at hok
      simp [World.allCallsSucceeded, Event.thrown, confirmedTrace] at hok

theorem existsSync_empty_outputDir (dirname : Path) :
    existsSync FS.empty (outputDir dirname) = false := by
  have h : outputDir dirname ≠ [] := by rw [outputDir_eq]; simp
  simp [existsSync, FS.empty, h]

/-- Without faults, a run with a confirmed and formatted deployment on the filesystem that
holds the root only makes no failing call. -/
theorem run_empty_succeeds {env : Env} (dirname : Path) {a s : JSString}
    (hres : deploymentResult env = some (a, s)) (hm : env.mkdirFault = none)
    (hw : env.writeFault = none) :
    (run env dirname FS.empty).allCallsSucceeded = true := by
  rcases run_cases env dirname FS.empty with ⟨e, hF⟩ | ⟨F, e, hF, hD⟩ | ⟨F, c, e, hF, hD, hW⟩
    | ⟨F, c, e, hF, hD, hW, hS⟩ | ⟨F, c, s, hF, hD, hW, hS, hX⟩
    | ⟨F, c, s, e, hF, hD, hW, hS, hX, hM⟩ | ⟨F, c, s, fs1, hF, hD, hW, hS, hX, hM⟩
  · simp [deploymentResult, hF] at hres
  · simp [deploymentResult, hF, hD] at hres
  · simp [deploymentResult, hF, hD, hW] at hres
  · simp [deploymentResult, hF, hD, hW, hS] at hres
  · rw [existsSync_empty_outputDir] at hX
    exact absurd hX (by decide)
  · exfalso
    rw [hm] at hM
    unfold mkdirSyncRecursive at hM
    have hnofile : ∀ q, isFile (FS.empty q) = false := by
      intro q
      unfold FS.empty
      split_ifs <;> rfl
    simp [hnofile] at hM
  · rw [run_mkdir_ok dirname FS.empty hF hD hW hS hX hM]
    have hfs1 := mkdirSyncRecursive_ok hM
    have hne : outputFile dirname ≠ [] := by rw [outputFile_eq]; simp
    have hnd : fs1 (outputFile dirname) ≠ some Node.dir := by
      rw [hfs1]
      simp only [if_neg (outputFile_not_in_chain dirname), FS.empty, if_neg hne]
      exact fun h => Option.noConfusion h
    have hparent : fs1 (outputFile dirname).dropLast = some Node.dir := by
      rw [outputFile_dropLast, hfs1]
      have : outputDir dirname ∈ (outputDir dirname).inits := by
        rw [List.mem_inits]
      simp only [if_pos this]
    have hwrite : writeFileSync env.writeFault fs1 (outputFile dirname)
        (JSONstringify (contractInfo c.address s) 2)
        = (Except.ok (), fs1.set (outputFile dirname)
            (Node.file (JSONstringify (contractInfo c.address s) 2))) := by
      unfold writeFileSync
      rw [if_neg (by simp [hne, hnd]), hparent, hw]
    simp [writeAndFinish, hwrite, World.allCallsSucceeded, Event.thrown, confirmedTrace]

/-! ## Claims about runs -/

/-- C1: in a run in which `getContractFactory`, `deploy`, `deployed`, the interface
formatting and the filesystem calls all succeed, with address `a` and schema `s`, the file
`SpaceVerse.json` under `<script dir>/../../spaceverse/assets/contracts` holds exactly
`JSON.stringify({address: a, abi: s}, null, 2)`: an object with the fields `address` then
`abi`, indented by two spaces. -/
theorem successful_run_writes_artifact (env : Env) (dirname : Path) (fs : FS)
    (F : ContractFactory) (c : Contract) (s : JSString)
    (hF : env.getContractFactory (lit "SpaceVerse") = Except.ok F)
    (hD : F.deploy = Except.ok c) (hW : c.deployed = Except.ok ())
    (hS : c.interfaceFormat = Except.ok s)
    (hok : (run env dirname fs).allCallsSucceeded = true) :
    (run env dirname fs).fs (outputFile dirname)
        = some (Node.file (JSONstringify (contractInfo c.address s) 2))
      ∧ outputFile dirname = dirname.dropLast.dropLast
          ++ [lit "spaceverse", lit "assets", lit "contracts", lit "SpaceVerse.json"]
      ∧ JSONstringify (contractInfo c.address s) 2
          = lit "\x7b\n  \"address\": " ++ QuoteJSONString c.address ++ lit ",\n  \"abi\": "
            ++ QuoteJSONString s ++ lit "\n\x7d" := by
  obtain ⟨a, s', hres, hfile, -⟩ := run_succeeded_content hok
  rw [deploymentResult_eq hF hD hW hS] at hres
  simp only [Option.some.injEq, Prod.mk.injEq] at hres
  obtain ⟨rfl, rfl⟩ := hres
  refine ⟨hfile, ?_, JSONstringify_contractInfo _ _⟩
  rw [outputFile_eq, outputDir_eq]
  simp

/-- Witness of C1. -/
theorem successful_run_writes_artifact_witness :
    (run exampleEnv exampleDirname FS.empty).fs (outputFile exampleDirname)
        = some (Node.file (JSONstringify
            (contractInfo exampleContract.address (lit "[]")) 2))
      ∧ outputFile exampleDirname = exampleDirname.dropLast.dropLast
          ++ [lit "spaceverse", lit "assets", lit "contracts", lit "SpaceVerse.json"]
      ∧ JSONstringify (contractInfo exampleContract.address (lit "[]")) 2
          = lit "\x7b\n  \"address\": " ++ QuoteJSONString exampleContract.address
            ++ lit ",\n  \"abi\": " ++ QuoteJSONString (lit "[]") ++ lit "\n\x7d" :=
  successful_run_writes_artifact exampleEnv exampleDirname FS.empty ⟨Except.ok exampleContract⟩
    exampleContract (lit "[]") rfl rfl rfl rfl (by decide)

/-- C2: when `deploy()` or the `deployed()` wait rejects, the filesystem after the run is
the filesystem before it, no filesystem call was made, and the exit code is 1. -/
theorem deployment_error_leaves_filesystem (env : Env) (dirname : Path) (fs : FS)
    (F : ContractFactory) (e : JSError)
    (hF : env.getContractFactory (lit "SpaceVerse") = Except.ok F)
    (hfail : F.deploy = Except.error e
      ∨ ∃ c, F.deploy = Except.ok c ∧ c.deployed = Except.error e) :
    (run env dirname fs).fs = fs
      ∧ (∀ ev ∈ (run env dirname fs).trace, ev.isFsOp = false)
      ∧ (run env dirname fs).exitCode ≠ 0 ∧ (run env dirname fs).exitCode = 1 := by
  rcases hfail with hD | ⟨c, hD, hW⟩
  · rw [run_deploy_error dirname fs hF hD]
    refine ⟨rfl, ?_, Nat.one_ne_zero, rfl⟩
    intro ev hev
    simp only [List.mem_cons, List.mem_singleton, List.not_mem_nil, or_false] at hev
    rcases hev with rfl | rfl | rfl | rfl <;> rfl
  · rw [run_deployed_error dirname fs hF hD hW]
    refine ⟨rfl, ?_, Nat.one_ne_zero, rfl⟩
    intro ev hev
    simp only [List.mem_cons, List.mem_singleton, List.not_mem_nil, or_false] at hev
    rcases hev with rfl | rfl | rfl | rfl | rfl <;> rfl

/-- Witness of C2. -/
theorem deployment_error_leaves_filesystem_witness :
    (run exampleEnvNoDeploy exampleDirname FS.empty).fs = FS.empty
      ∧ (∀ ev ∈ (run exampleEnvNoDeploy exampleDirname FS.empty).trace, ev.isFsOp = false)
      ∧ (run exampleEnvNoDeploy exampleDirname FS.empty).exitCode ≠ 0
      ∧ (run exampleEnvNoDeploy exampleDirname FS.empty).exitCode = 1 :=
  deployment_error_leaves_filesystem exampleEnvNoDeploy exampleDirname FS.empty
    ⟨Except.error ⟨lit "insufficient funds"⟩⟩ ⟨lit "insufficient funds"⟩ rfl (Or.inl rfl)

/-- C3: the exit code is 1 and the error `e` is passed to `console.error` exactly when `main`
rejects with `e`, which is exactly when some call of the run threw or rejected with `e`;
when no call threw, the exit code is 0 and `console.error` is not called. -/
theorem exit_code_one_iff_call_threw (env : Env) (dirname : Path) (fs : FS) :
    (∀ e, (main env dirname (World.init fs)).1 = Except.error e
        ↔ ((run env dirname fs).exitCode = 1
          ∧ Event.consoleError e ∈ (run env dirname fs).trace))
      ∧ (∀ e, ((run env dirname fs).exitCode = 1
          ∧ Event.consoleError e ∈ (run env dirname fs).trace)
        ↔ ∃ ev ∈ (run env dirname fs).trace, ev.thrown = some e)
      ∧ ((run env dirname fs).exitCode = 1
        ↔ ∃ ev ∈ (run env dirname fs).trace, ev.thrown.isSome = true)
      ∧ ((∀ ev ∈ (run env dirname fs).trace, ev.thrown = none) →
          (run env dirname fs).exitCode = 0
            ∧ ∀ e, Event.consoleError e ∉ (run env dirname fs).trace) := by
  refine ⟨fun e => run_rejected_iff env dirname fs e, ?_⟩
  rcases run_cases env dirname fs with ⟨e, hF⟩ | ⟨F, e, hF, hD⟩ | ⟨F, c, e, hF, hD, hW⟩
    | ⟨F, c, e, hF, hD, hW, hS⟩ | ⟨F, c, s, hF, hD, hW, hS, hX⟩
    | ⟨F, c, s, e, hF, hD, hW, hS, hX, hM⟩ | ⟨F, c, s, fs1, hF, hD, hW, hS, hX, hM⟩
  · rw [run_factory_error dirname fs hF]
    simp [Event.thrown]
    exact fun _ => eq_comm
  · rw [run_deploy_error dirname fs hF hD]
    simp [Event.thrown]
    exact fun _ => eq_comm
  · rw [run_deployed_error dirname fs hF hD hW]
    simp [Event.thrown]
    exact fun _ => eq_comm
  · rw [run_format_error dirname fs hF hD hW hS]
    simp [Event.thrown, confirmedTrace]
    exact fun _ => eq_comm
  · rw [run_dir_exists dirname fs hF hD hW hS hX]
    rcases writeAndFinish_trace env dirname (JSONstringify (contractInfo c.address s) 2) fs
      (confirmedTrace c.address
        ++ [Event.interfaceFormat none, Event.existsSync (outputDir dirname) true])
      with ⟨h, -⟩ | ⟨e, fs2, h⟩
    · rw [h]; simp [Event.thrown, confirmedTrace]
    · rw [h]; simp [Event.thrown, confirmedTrace]
      exact fun _ => eq_comm
  · rw [run_mkdir_error dirname fs hF hD hW hS hX hM]
    simp [Event.thrown, confirmedTrace]
    exact fun _ => eq_comm
  · rw [run_mkdir_ok dirname fs hF hD hW hS hX hM]
    rcases writeAndFinish_trace env dirname (JSONstringify (contractInfo c.address s) 2) fs1
      (confirmedTrace c.address
        ++ [Event.interfaceFormat none, Event.existsSync (outputDir dirname) false,
          Event.mkdirSync (outputDir dirname) none])
      with ⟨h, -⟩ | ⟨e, fs2, h⟩
    · rw [h]; simp [Event.thrown, confirmedTrace]
    · rw [h]; simp [Event.thrown, confirmedTrace]
      exact fun _ => eq_comm

/-- C5: in every run, each filesystem call (`existsSync`, `mkdirSync`, `writeFileSync`) and
each read of the contract's `address` or `interface` comes after the `deployed()` wait has
resolved; so a write of the artifact is always preceded by the confirmation. -/
theorem filesystem_and_reads_after_confirmation (env : Env) (dirname : Path) (fs : FS)
    (pre : List Event) (ev : Event) (post : List Event)
    (hsplit : (run env dirname fs).trace = pre ++ ev :: post)
    (hev : ev.isFsOp = true ∨ ev.isContractRead = true) :
    Event.deployed none ∈ pre := by
  have hg : (ev.isFsOp || ev.isContractRead) = true := by
    rw [Bool.or_eq_true]; exact hev
  rcases guardedAfterConfirmation_sound _ false pre ev post
    (run_guardedAfterConfirmation env dirname fs) hsplit hg with h | h
  · exact absurd h (by decide)
  · exact h

/-- Witness of C5: the `existsSync` call of a successful run. -/
theorem filesystem_and_reads_after_confirmation_witness :
    Event.deployed none ∈ confirmedTrace exampleContract.address ++ [Event.interfaceFormat none] :=
  filesystem_and_reads_after_confirmation exampleEnv exampleDirname FS.empty
    (confirmedTrace exampleContract.address ++ [Event.interfaceFormat none])
    (Event.existsSync (outputDir exampleDirname) false)
    [Event.mkdirSync (outputDir exampleDirname) none,
      Event.writeFileSync (outputFile exampleDirname)
        (JSONstringify (contractInfo exampleContract.address (lit "[]")) 2) none,
      Event.consoleLog (lit "Contract info saved to " ++ (outputDir exampleDirname).toJSString
        ++ lit "/SpaceVerse.json")]
    (by decide) (Or.inl rfl)

/-- C6: after two consecutive runs in which no call throws, `SpaceVerse.json` holds exactly
the serialisation of the second deployment result `(a2, s2)`, which is what any run with
that result in which no call throws writes on the filesystem that holds the root only
(such a run exists); nothing depends on the first run or on the first filesystem. -/
theorem second_run_overwrites (env1 env2 : Env) (dirname : Path) (fs0 : FS)
    (a2 s2 : JSString)
    (_h1 : (run env1 dirname fs0).allCallsSucceeded = true)
    (h2 : (run env2 dirname (run env1 dirname fs0).fs).allCallsSucceeded = true)
    (hres : deploymentResult env2 = some (a2, s2)) :
    (run env2 dirname (run env1 dirname fs0).fs).fs (outputFile dirname)
        = some (Node.file (JSONstringify (contractInfo a2 s2) 2))
      ∧ (∀ env3, deploymentResult env3 = some (a2, s2) →
          (run env3 dirname FS.empty).allCallsSucceeded = true →
          (run env2 dirname (run env1 dirname fs0).fs).fs (outputFile dirname)
            = (run env3 dirname FS.empty).fs (outputFile dirname))
      ∧ ∃ env3, deploymentResult env3 = some (a2, s2)
          ∧ (run env3 dirname FS.empty).allCallsSucceeded = true := by
  obtain ⟨a, s, hr, hfile, -⟩ := run_succeeded_content h2
  rw [hres] at hr
  simp only [Option.some.injEq, Prod.mk.injEq] at hr
  obtain ⟨rfl, rfl⟩ := hr
  refine ⟨hfile, ?_, ?_⟩
  · intro env3 hres3 h3
    obtain ⟨a, s, hr, hfile3, -⟩ := run_succeeded_content h3
    rw [hres3] at hr
    simp only [Option.some.injEq, Prod.mk.injEq] at hr
    obtain ⟨rfl, rfl⟩ := hr
    rw [hfile, hfile3]
  · refine ⟨⟨env2.getContractFactory, none, none⟩, hres, ?_⟩
    exact @run_empty_succeeds ⟨env2.getContractFactory, none, none⟩ dirname a2 s2 hres rfl rfl

/-- Witness of C6: a run with one result followed by a run with another. -/
theorem second_run_overwrites_witness :
    (run exampleEnvSecond exampleDirname (run exampleEnv exampleDirname FS.empty).fs).fs
          (outputFile exampleDirname)
        = some (Node.file (JSONstringify
            (contractInfo (lit "0xe7f1725E7734CE288F8367e1Bb143E90bb3F0512")
              (lit "[\x7b\"type\":\"constructor\"\x7d]")) 2))
      ∧ (∀ env3, deploymentResult env3
            = some (lit "0xe7f1725E7734CE288F8367e1Bb143E90bb3F0512",
                lit "[\x7b\"type\":\"constructor\"\x7d]") →
          (run env3 exampleDirname FS.empty).allCallsSucceeded = true →
          (run exampleEnvSecond exampleDirname
              (run exampleEnv exampleDirname FS.empty).fs).fs (outputFile exampleDirname)
            = (run env3 exampleDirname FS.empty).fs (outputFile exampleDirname))
      ∧ ∃ env3, deploymentResult env3
            = some (lit "0xe7f1725E7734CE288F8367e1Bb143E90bb3F0512",
                lit "[\x7b\"type\":\"constructor\"\x7d]")
          ∧ (run env3 exampleDirname FS.empty).allCallsSucceeded = true :=
  second_run_overwrites exampleEnv exampleEnvSecond exampleDirname FS.empty
    (lit "0xe7f1725E7734CE288F8367e1Bb143E90bb3F0512") (lit "[\x7b\"type\":\"constructor\"\x7d]")
    (by decide) (by decide) rfl

/-- C7: two runs in which no call throws and whose deployment results are equal leave the
same content in `SpaceVerse.json`, whatever the two initial filesystems (and script
directories): the content is the serialisation of the deployment result. -/
theorem equal_results_equal_content (envA envB : Env) (dirA dirB : Path) (fsA fsB : FS)
    (hA : (run envA dirA fsA).allCallsSucceeded = true)
    (hB : (run envB dirB fsB).allCallsSucceeded = true)
    (hres : deploymentResult envA = deploymentResult envB) :
    (run envA dirA fsA).fs (outputFile dirA) = (run envB dirB fsB).fs (outputFile dirB)
      ∧ ∃ a s, deploymentResult envA = some (a, s)
          ∧ (run envA dirA fsA).fs (outputFile dirA)
              = some (Node.file (JSONstringify (contractInfo a s) 2)) := by
  obtain ⟨a, s, hrA, hfileA, -⟩ := run_succeeded_content hA
  obtain ⟨b, t, hrB, hfileB, -⟩ := run_succeeded_content hB
  rw [hrA, hrB] at hres
  simp only [Option.some.injEq, Prod.mk.injEq] at hres
  obtain ⟨rfl, rfl⟩ := hres
  exact ⟨by rw [hfileA, hfileB], a, s, hrA, hfileA⟩

/-- Witness of C7: the same deployment result from an empty filesystem and from one in which
the file already exists with another content, with another script directory. -/
theorem equal_results_equal_content_witness :
    (run exampleEnv exampleDirname FS.empty).fs (outputFile exampleDirname)
        = (run exampleEnv [lit "w", lit "other", lit "scripts"]
            (run exampleEnvSecond exampleDirname FS.empty).fs).fs
              (outputFile [lit "w", lit "other", lit "scripts"])
      ∧ ∃ a s, deploymentResult exampleEnv = some (a, s)
          ∧ (run exampleEnv exampleDirname FS.empty).fs (outputFile exampleDirname)
              = some (Node.file (JSONstringify (contractInfo a s) 2)) :=
  equal_results_equal_content exampleEnv exampleEnv exampleDirname
    [lit "w", lit "other", lit "scripts"] FS.empty
    (run exampleEnvSecond exampleDirname FS.empty).fs (by decide) (by decide) rfl

/-- C8: in a run in which no call throws, the written file parses as a JSON object whose
`address` member is the address the deployment returned, and when that address is `0x`
followed by 40 hexadecimal digits the file has exactly these characters between the quotes
of the `address` value. -/
theorem address_written_untransformed (env : Env) (dirname : Path) (fs : FS)
    (F : ContractFactory) (c : Contract) (s : JSString)
    (hF : env.getContractFactory (lit "SpaceVerse") = Except.ok F)
    (hD : F.deploy = Except.ok c) (hW : c.deployed = Except.ok ())
    (hS : c.interfaceFormat = Except.ok s)
    (hok : (run env dirname fs).allCallsSucceeded = true) :
    ∃ data, (run env dirname fs).fs (outputFile dirname) = some (Node.file data)
      ∧ (JSONparse data).bind (fun members => getProperty members (lit "address"))
          = some c.address
      ∧ (isChainAddress c.address = true →
          data = lit "\x7b\n  \"address\": \"" ++ c.address ++ lit "\",\n  \"abi\": "
            ++ QuoteJSONString s ++ lit "\n\x7d") := by
  obtain ⟨a, s', hres, hfile, -⟩ := run_succeeded_content hok
  rw [deploymentResult_eq hF hD hW hS] at hres
  simp only [Option.some.injEq, Prod.mk.injEq] at hres
  obtain ⟨rfl, rfl⟩ := hres
  refine ⟨_, hfile, ?_, ?_⟩
  · rw [JSONparse_JSONstringify, Option.some_bind, getProperty_address]
  · intro haddr
    have l1 : lit "\x7b\n  \"address\": \"" = lit "\x7b\n  \"address\": " ++ [0x22] := by decide
    have l2 : lit "\",\n  \"abi\": " = [0x22] ++ lit ",\n  \"abi\": " := by decide
    rw [JSONstringify_contractInfo, l1, l2]
    have hq : QuoteJSONString c.address = [0x22] ++ c.address ++ [0x22] := by
      rw [QuoteJSONString, quoteBody_plain _ (isChainAddress_plain _ haddr)]
    rw [hq]
    simp only [List.append_assoc]

/-- Witness of C8. -/
theorem address_written_untransformed_witness :
    ∃ data, (run exampleEnv exampleDirname FS.empty).fs (outputFile exampleDirname)
        = some (Node.file data)
      ∧ (JSONparse data).bind (fun members => getProperty members (lit "address"))
          = some exampleContract.address
      ∧ (isChainAddress exampleContract.address = true →
          data = lit "\x7b\n  \"address\": \"" ++ exampleContract.address ++ lit "\",\n  \"abi\": "
            ++ QuoteJSONString (lit "[]") ++ lit "\n\x7d") :=
  address_written_untransformed exampleEnv exampleDirname FS.empty ⟨Except.ok exampleContract⟩
    exampleContract (lit "[]") rfl rfl rfl rfl (by decide)

/-- C9: when `getContractFactory` rejects, the run logs the start, the failed call and the
error and nothing else: no `deploy()` or `deployed()` call, no filesystem call, the
filesystem is unchanged, and the exit code is 1. -/
theorem factory_error_aborts_before_network (env : Env) (dirname : Path) (fs : FS)
    (e : JSError) (h : env.getContractFactory (lit "SpaceVerse") = Except.error e) :
    (run env dirname fs).trace =
        [Event.consoleLog (lit "Deploying SpaceVerse contract..."),
          Event.getContractFactory (lit "SpaceVerse") (some e), Event.consoleError e]
      ∧ (∀ ev ∈ (run env dirname fs).trace, ev.isNetworkCall = false ∧ ev.isFsOp = false)
      ∧ (run env dirname fs).fs = fs
      ∧ (run env dirname fs).exitCode = 1 := by
  rw [run_factory_error dirname fs h]
  refine ⟨rfl, ?_, rfl, rfl⟩
  intro ev hev
  simp only [List.mem_cons, List.mem_singleton, List.not_mem_nil, or_false] at hev
  rcases hev with rfl | rfl | rfl <;> exact ⟨rfl, rfl⟩

/-- Witness of C9. -/
theorem factory_error_aborts_before_network_witness :
    (run exampleEnvNoFactory exampleDirname FS.empty).trace =
        [Event.consoleLog (lit "Deploying SpaceVerse contract..."),
          Event.getContractFactory (lit "SpaceVerse") (some ⟨lit "HH700"⟩),
          Event.consoleError ⟨lit "HH700"⟩]
      ∧ (∀ ev ∈ (run exampleEnvNoFactory exampleDirname FS.empty).trace,
          ev.isNetworkCall = false ∧ ev.isFsOp = false)
      ∧ (run exampleEnvNoFactory exampleDirname FS.empty).fs = FS.empty
      ∧ (run exampleEnvNoFactory exampleDirname FS.empty).exitCode = 1 :=
  factory_error_aborts_before_network exampleEnvNoFactory exampleDirname FS.empty
    ⟨lit "HH700"⟩ rfl

/-- C10: in every run `writeFileSync` is called at most once, and exactly once when no call
throws; a path that is neither `SpaceVerse.json` in the output directory nor on the chain
from the root to the output directory holds after the run what it held before; and when the
output directory exists, `mkdirSync` is not called and every path other than
`SpaceVerse.json` is unchanged. -/
theorem single_write_and_frame (env : Env) (dirname : Path) (fs : FS) :
    (run env dirname fs).trace.countP Event.isWrite ≤ 1
      ∧ ((run env dirname fs).allCallsSucceeded = true →
          (run env dirname fs).trace.countP Event.isWrite = 1)
      ∧ (∀ q, q ≠ outputFile dirname → q ∉ (outputDir dirname).inits →
          (run env dirname fs).fs q = fs q)
      ∧ (existsSync fs (outputDir dirname) = true →
          (∀ ev ∈ (run env dirname fs).trace, ev.isMkdir = false)
            ∧ ∀ q, q ≠ outputFile dirname → (run env dirname fs).fs q = fs q) := by
  rcases run_cases env dirname fs with ⟨e, hF⟩ | ⟨F, e, hF, hD⟩ | ⟨F, c, e, hF, hD, hW⟩
    | ⟨F, c, e, hF, hD, hW, hS⟩ | ⟨F, c, s, hF, hD, hW, hS, hX⟩
    | ⟨F, c, s, e, hF, hD, hW, hS, hX, hM⟩ | ⟨F, c, s, fs1, hF, hD, hW, hS, hX, hM⟩
  · rw [run_factory_error dirname fs hF]
    simp [Event.isWrite, Event.isMkdir, World.allCallsSucceeded, Event.thrown]
  · rw [run_deploy_error dirname fs hF hD]
    simp [Event.isWrite, Event.isMkdir, World.allCallsSucceeded, Event.thrown]
  · rw [run_deployed_error dirname fs hF hD hW]
    simp [Event.isWrite, Event.isMkdir, World.allCallsSucceeded, Event.thrown]
  · rw [run_format_error dirname fs hF hD hW hS]
    simp [Event.isWrite, Event.isMkdir, World.allCallsSucceeded, Event.thrown, confirmedTrace]
  · rw [run_dir_exists dirname fs hF hD hW hS hX]
    have hframe := writeAndFinish_frame env dirname (JSONstringify (contractInfo c.address s) 2)
      fs (confirmedTrace c.address
        ++ [Event.interfaceFormat none, Event.existsSync (outputDir dirname) true])
    refine ⟨?_, ?_, fun q hq _ => hframe q hq, fun _ => ⟨?_, hframe⟩⟩ <;>
    · rcases writeAndFinish_trace env dirname (JSONstringify (contractInfo c.address s) 2) fs
        (confirmedTrace c.address
          ++ [Event.interfaceFormat none, Event.existsSync (outputDir dirname) true])
        with ⟨h, -⟩ | ⟨e, fs2, h⟩ <;> rw [h] <;>
      simp [Event.isWrite, Event.isMkdir, World.allCallsSucceeded, Event.thrown,
        confirmedTrace]
  · rw [run_mkdir_error dirname fs hF hD hW hS hX hM]
    simp [Event.isWrite, World.allCallsSucceeded, Event.thrown, confirmedTrace, hX]
  · rw [run_mkdir_ok dirname fs hF hD hW hS hX hM]
    have hframe := writeAndFinish_frame env dirname (JSONstringify (contractInfo c.address s) 2)
      fs1 (confirmedTrace c.address
        ++ [Event.interfaceFormat none, Event.existsSync (outputDir dirname) false,
          Event.mkdirSync (outputDir dirname) none])
    have hfs1 := mkdirSyncRecursive_ok hM
    refine ⟨?_, ?_, ?_, fun h => absurd (hX ▸ h) (by decide)⟩
    · rcases writeAndFinish_trace env dirname (JSONstringify (contractInfo c.address s) 2) fs1
        (confirmedTrace c.address
          ++ [Event.interfaceFormat none, Event.existsSync (outputDir dirname) false,
            Event.mkdirSync (outputDir dirname) none])
        with ⟨h, -⟩ | ⟨e, fs2, h⟩ <;> rw [h] <;>
      simp [Event.isWrite, confirmedTrace]
    · rcases writeAndFinish_trace env dirname (JSONstringify (contractInfo c.address s) 2) fs1
        (confirmedTrace c.address
          ++ [Event.interfaceFormat none, Event.existsSync (outputDir dirname) false,
            Event.mkdirSync (outputDir dirname) none])
        with ⟨h, -⟩ | ⟨e, fs2, h⟩ <;> rw [h] <;>
      simp [Event.isWrite, World.allCallsSucceeded, Event.thrown, confirmedTrace]
    · intro q hq hchain
      rw [hframe q hq, hfs1]
      simp only [if_neg hchain]

end SpaceVerse
